import Mathlib

/-!
Shallow embedding of the codex-temporal orchestration core (Rust), used to
check the natural-language specification against the implementation.

Embedded source files:
- `src/types.rs`     — signal payloads, workflow I/O, `PendingApproval`
- `src/sink.rs`      — `BufferEventSink` (`drain`, `events_since`, `emit_event_sync`)
- `src/workflow.rs`  — `CodexWorkflow` state, signal handlers, queries, run loop
- `src/tools.rs`     — `TemporalToolHandler::handle_tool_call`, `denied_response`
- `src/entropy.rs` and `src/adapters/entropy.rs` — deterministic PRNGs

Pure data is translated directly; the stateful workflow body is modelled as
explicit state passing plus a step function on a machine state that records
the run loop's control location (each location is one of the loop's explicit
suspension points).  Machine integers are `Nat` with explicit `% 2 ^ 64`
where Rust u64 arithmetic wraps.  JSON serialization of events is abstracted
as a function parameter.
-/

namespace CodexTemporal

/-! ## Event model (codex_protocol::protocol::Event, restricted to the
variants the embedded code emits into the buffer). -/

/-- Tagged event payload. Mirrors the `EventMsg` variants that
`workflow.rs` / `tools.rs` emit: `TurnStarted`, `TurnComplete`,
`ExecApprovalRequest`, `AgentMessage` (emitted by the streamed model
output), `ShutdownComplete`. Only the fields the claims inspect are
carried. -/
inductive EventMsg where
  | turnStarted (turn_id : String)
  | turnComplete (turn_id : String) (last_agent_message : Option String)
  | execApprovalRequest (call_id : String) (turn_id : String) (command : List String)
  | agentMessage (text : String)
  | shutdownComplete
deriving DecidableEq

/-- An event as buffered by the sink: `{id, msg}`. -/
structure Event where
  id : String
  msg : EventMsg
deriving DecidableEq

/-! ## src/sink.rs — BufferEventSink -/

/-- In-memory event buffer (`BufferEventSink { events: Mutex<Vec<Event>> }`).
The mutex only serializes access; the workflow is single-threaded, so the
buffer is modelled as a plain list. -/
structure BufferEventSink where
  events : List Event
deriving DecidableEq

namespace BufferEventSink

/-- Constructor `BufferEventSink::new()`. -/
def new : BufferEventSink := ⟨[]⟩

/-- Method `drain(&self)`: `std::mem::take` returns all buffered events and
leaves the buffer empty. -/
def drain (s : BufferEventSink) : List Event × BufferEventSink :=
  (s.events, ⟨[]⟩)

/-- Method `events_since(&self, from_index)`: returns JSON-serialized events
from `from_index` on, plus the watermark (total number of events).
`ser` abstracts `|e| serde_json::to_string(e).ok()`; events whose
serialization fails are dropped by the `filter_map`. -/
def events_since (ser : Event → Option String) (s : BufferEventSink)
    (from_index : Nat) : List String × Nat :=
  let total := s.events.length
  if total ≤ from_index then ([], total)
  else ((s.events.drop from_index).filterMap ser, total)

/-- Method `len(&self)`. -/
def len (s : BufferEventSink) : Nat := s.events.length

/-- Method `emit_event_sync(&self, event)`: push one event. -/
def emit_event_sync (s : BufferEventSink) (e : Event) : BufferEventSink :=
  ⟨s.events ++ [e]⟩

end BufferEventSink

/-! ## src/types.rs — signal payloads and workflow I/O -/

/-- Signal payload `UserTurnInput { turn_id, message }`. -/
structure UserTurnInput where
  turn_id : String
  message : String
deriving DecidableEq

/-- Signal payload `ApprovalInput { call_id, approved }`. -/
structure ApprovalInput where
  call_id : String
  approved : Bool
deriving DecidableEq

/-- Workflow-internal `PendingApproval { call_id, decision }`. -/
structure PendingApproval where
  call_id : String
  decision : Option Bool
deriving DecidableEq

/-- Approval policy `codex_protocol::protocol::AskForApproval` (external
enum with exactly these four variants, as matched in `tools.rs`). -/
inductive AskForApproval where
  | never
  | unlessTrusted
  | onRequest
  | onFailure
deriving DecidableEq

/-- Web search mode (external enum; carried by the workflow input but never
inspected by the embedded code). -/
inductive WebSearchMode where
  | live
  | cached
  | disabled
deriving DecidableEq

/-- Workflow start input `CodexWorkflowInput`. -/
structure CodexWorkflowInput where
  user_message : String
  model : String
  instructions : String
  approval_policy : AskForApproval
  web_search_mode : Option WebSearchMode
deriving DecidableEq

/-- Workflow result `CodexWorkflowOutput { last_agent_message, iterations }`. -/
structure CodexWorkflowOutput where
  last_agent_message : Option String
  iterations : Nat
deriving DecidableEq

/-! ## src/workflow.rs — workflow state, signal handlers, queries -/

/-- The mutable fields of `CodexWorkflow` (the `input` field is immutable and
is passed separately where needed). -/
structure CodexWorkflowState where
  user_turns : List UserTurnInput
  pending_approval : Option PendingApproval
  shutdown_requested : Bool
  events : BufferEventSink
deriving DecidableEq

namespace CodexWorkflowState

/-- Signal handler `receive_user_turn`: `self.user_turns.push(input)`. -/
def receive_user_turn (s : CodexWorkflowState) (input : UserTurnInput) :
    CodexWorkflowState :=
  { s with user_turns := s.user_turns ++ [input] }

/-- Signal handler `receive_approval`: set the decision only when a pending
approval exists and its `call_id` matches. -/
def receive_approval (s : CodexWorkflowState) (input : ApprovalInput) :
    CodexWorkflowState :=
  match s.pending_approval with
  | some pa =>
    if pa.call_id = input.call_id then
      { s with pending_approval := some { pa with decision := some input.approved } }
    else s
  | none => s

/-- Signal handler `request_shutdown`: set the flag. -/
def request_shutdown (s : CodexWorkflowState) : CodexWorkflowState :=
  { s with shutdown_requested := true }

/-- Query `get_events_since(from_index)`: delegates to
`BufferEventSink::events_since` and wraps the result in JSON (the wrapper
serialization is abstracted; the pair is returned directly).  The query
takes `&self`; the state component of the result records what the workflow
state is after the query runs. -/
def get_events_since (ser : Event → Option String) (s : CodexWorkflowState)
    (from_index : Nat) : (List String × Nat) × CodexWorkflowState :=
  (s.events.events_since ser from_index, s)

/-- Legacy query `get_events()`: `self.events.drain()` then debug-format each
event (`format!("{e:?}")` abstracted as `dbg`).  The state component of the
result records what the workflow state is after the query runs: `drain`
replaces the buffer contents with the empty vector. -/
def get_events (dbg : Event → String) (s : CodexWorkflowState) :
    List String × CodexWorkflowState :=
  let (evs, sink) := s.events.drain
  (evs.map dbg, { s with events := sink })

end CodexWorkflowState

/-- Workflow `#[init]` (`CodexWorkflow::new`): seed `turn-0` from a non-empty
`user_message`; empty buffer, no pending approval, no shutdown. -/
def initWorkflowState (input : CodexWorkflowInput) : CodexWorkflowState :=
  { user_turns :=
      if input.user_message.isEmpty then []
      else [{ turn_id := "turn-0", message := input.user_message }],
    pending_approval := none,
    shutdown_requested := false,
    events := BufferEventSink.new }

/-! ## src/tools.rs — TemporalToolHandler -/

/-- Body of the denied `function_call_output` built by `denied_response`:
in Rust this record is encoded as a JSON string
`{"output": …, "metadata": {"exit_code": …, "duration_seconds": …}}`;
it is modelled structurally. -/
structure FunctionCallOutputBody where
  output : String
  exit_code : Int
  duration_seconds : ℚ
deriving DecidableEq

/-- `FunctionCallOutputPayload { body, success }`. -/
structure FunctionCallOutputPayload where
  body : FunctionCallOutputBody
  success : Option Bool
deriving DecidableEq

/-- The `ResponseInputItem` values the handler can return (only the
`FunctionCallOutput` variant is constructed by the embedded code). -/
inductive ResponseInputItem where
  | functionCallOutput (call_id : String) (output : FunctionCallOutputPayload)
deriving DecidableEq

/-- Function `denied_response(call_id)` from `tools.rs`. -/
def denied_response (call_id : String) : ResponseInputItem :=
  .functionCallOutput call_id
    { body :=
        { output := "Tool execution was denied by the user.",
          exit_code := 1,
          duration_seconds := 0 },
      success := some false }

/-- The `ToolExecInput` payload as constructed at the `start_activity` call
in `tools.rs` (`{ tool_name, call_id, arguments }`). -/
structure ToolExecInput where
  tool_name : String
  call_id : String
  arguments : String
deriving DecidableEq

/-- Result of one `handle_tool_call`: either the `tool_exec` activity is
dispatched with the given input, or a synthesized denial is returned and no
activity is dispatched. -/
inductive HandlerResult where
  | dispatched (input : ToolExecInput)
  | denied (item : ResponseInputItem)
deriving DecidableEq

/-- Approval gate of `handle_tool_call` (`let needs_approval = match
approval_policy { … }`). `is_known_safe_command` is the external allowlist
classifier from `codex_shell_command`, applied to the parsed command
vector; it is a parameter of the embedding. -/
def needs_approval (is_known_safe_command : List String → Bool)
    (policy : AskForApproval) (command : List String) : Bool :=
  match policy with
  | .never => false
  | .unlessTrusted => !is_known_safe_command command
  | .onRequest => true
  | .onFailure => true

/-- The `ExecApprovalRequest` event emitted by the handler (step 2). -/
def approval_request_event (call_id turn_id : String) (command : List String) :
    Event :=
  { id := turn_id, msg := .execApprovalRequest call_id turn_id command }

/-- Steps 1–2 of the approval path of `handle_tool_call`: set
`pending_approval = Some {call_id, decision: None}` and emit the
`ExecApprovalRequest` event, before suspending on `wait_condition`. -/
def set_pending_and_request (st : CodexWorkflowState)
    (call_id turn_id : String) (command : List String) : CodexWorkflowState :=
  { st with
      pending_approval := some { call_id := call_id, decision := none },
      events := st.events.emit_event_sync
        (approval_request_event call_id turn_id command) }

/-- Step 4 of `handle_tool_call`: read the decision
(`pending_approval.and_then(|p| p.decision).unwrap_or(false)`) and clear
`pending_approval`. -/
def read_and_clear_decision (s : CodexWorkflowState) :
    Bool × CodexWorkflowState :=
  ((s.pending_approval.bind PendingApproval.decision).getD false,
   { s with pending_approval := none })

/-- `TemporalToolHandler::handle_tool_call`, with the suspension modelled
explicitly: `env` maps the state at the `wait_condition` suspension to the
state when the wait completes (the workflow is single-threaded, so only
signal deliveries run in between).  Returns the workflow state after the
handler resumes and the handler's result. -/
def handle_tool_call (is_known_safe_command : List String → Bool)
    (policy : AskForApproval) (command : List String)
    (tool_name call_id turn_id arguments : String)
    (env : CodexWorkflowState → CodexWorkflowState)
    (st : CodexWorkflowState) : CodexWorkflowState × HandlerResult :=
  if needs_approval is_known_safe_command policy command then
    let wake := env (set_pending_and_request st call_id turn_id command)
    let rd := read_and_clear_decision wake
    if rd.1 then (rd.2, .dispatched ⟨tool_name, call_id, arguments⟩)
    else (rd.2, .denied (denied_response call_id))
  else
    (st, .dispatched ⟨tool_name, call_id, arguments⟩)

/-- Closure of the three signal handlers: `SignalSteps s t` holds when `t`
is obtained from `s` by delivering finitely many signals.  During the
handler's `wait_condition` suspension these are the only state changes the
single-threaded workflow can undergo. -/
inductive SignalSteps : CodexWorkflowState → CodexWorkflowState → Prop where
  | refl (s : CodexWorkflowState) : SignalSteps s s
  | userTurn {s t : CodexWorkflowState} (u : UserTurnInput) :
      SignalSteps s t → SignalSteps s (t.receive_user_turn u)
  | approval {s t : CodexWorkflowState} (a : ApprovalInput) :
      SignalSteps s t → SignalSteps s (t.receive_approval a)
  | shutdown {s t : CodexWorkflowState} :
      SignalSteps s t → SignalSteps s t.request_shutdown

/-! ## src/workflow.rs — the run loop as a machine

The `#[run]` body is single-threaded and cooperative: it suspends only at
`wait_condition(user_turns non-empty or shutdown)`, at the tool handler's
`wait_condition(decision resolved)`, and at activity awaits.  It is modelled
as a step function on a machine state carrying the workflow state plus the
loop's control location; signal deliveries are interleaved as explicit
actions.  Model/tool activities are abstracted: a sampling round either
continues the inner loop, asks for approval, emits an agent message, or
finishes the turn. -/

/-- Control location of the suspended run loop. -/
inductive Loc where
  | waitingForTurn
  | inTurn (turn_id : String)
  | awaitingApproval (call_id : String) (turn_id : String)
  | finished
deriving DecidableEq

/-- Machine state: workflow fields plus control location. -/
structure MachineState where
  wf : CodexWorkflowState
  loc : Loc
deriving DecidableEq

/-- One machine action: a signal delivery or one resumption of the run
loop at a suspension point. -/
inductive Action where
  | sigUserTurn (u : UserTurnInput)
  | sigApproval (a : ApprovalInput)
  | sigShutdown
  | startTurn
  | exitShutdown
  | emitAgentMessage (text : String)
  | requestApproval (call_id : String) (command : List String)
  | resolveApproval
  | finishTurn (last_agent_message : Option String)
deriving DecidableEq

/-- Step function.  `none` means the action is not enabled in this state.

- the three `sig…` actions apply the corresponding signal handler;
- `startTurn`: the outer loop passes `wait_condition`, does not take the
  shutdown-and-drained break, dequeues `user_turns.remove(0)` and emits
  `TurnStarted` (lines 195–223 of workflow.rs);
- `exitShutdown`: the outer loop breaks with the queue drained and emits
  `ShutdownComplete` (lines 201–207 and 331–335);
- `emitAgentMessage`: the streamed model output appends an event mid-turn;
- `requestApproval`: the tool handler runs steps 1–2 and suspends;
- `resolveApproval`: the handler's `wait_condition` fires (the condition is
  `pending_approval.map_or(true, |p| p.decision.is_some())`) and the
  decision is read and cleared; both the approved and the denied branch
  return control to the inner loop;
- `finishTurn`: the inner loop ends (final answer, non-retryable error, or
  `MAX_ITERATIONS`), `TurnComplete` is emitted, and the loop either waits
  for the next turn or, when shutdown was requested, breaks and emits
  `ShutdownComplete` (lines 313–327). -/
def step (s : MachineState) (a : Action) : Option MachineState :=
  match a with
  | .sigUserTurn u => some { s with wf := s.wf.receive_user_turn u }
  | .sigApproval ap => some { s with wf := s.wf.receive_approval ap }
  | .sigShutdown => some { s with wf := s.wf.request_shutdown }
  | .startTurn =>
    match s.loc, s.wf.user_turns with
    | .waitingForTurn, t :: rest =>
      some { wf := { s.wf with
                user_turns := rest,
                events := s.wf.events.emit_event_sync
                  ⟨t.turn_id, .turnStarted t.turn_id⟩ },
             loc := .inTurn t.turn_id }
    | _, _ => none
  | .exitShutdown =>
    match s.loc with
    | .waitingForTurn =>
      if s.wf.shutdown_requested && s.wf.user_turns.isEmpty then
        some { wf := { s.wf with
                  events := s.wf.events.emit_event_sync ⟨"", .shutdownComplete⟩ },
               loc := .finished }
      else none
    | _ => none
  | .emitAgentMessage text =>
    match s.loc with
    | .inTurn tid =>
      some { s with wf := { s.wf with
               events := s.wf.events.emit_event_sync ⟨tid, .agentMessage text⟩ } }
    | _ => none
  | .requestApproval call_id command =>
    match s.loc with
    | .inTurn tid =>
      some { wf := set_pending_and_request s.wf call_id tid command,
             loc := .awaitingApproval call_id tid }
    | _ => none
  | .resolveApproval =>
    match s.loc with
    | .awaitingApproval _ tid =>
      if (s.wf.pending_approval.map (fun p => p.decision.isSome)).getD true then
        some { wf := (read_and_clear_decision s.wf).2, loc := .inTurn tid }
      else none
    | _ => none
  | .finishTurn msg =>
    match s.loc with
    | .inTurn tid =>
      let wf1 := { s.wf with
        events := s.wf.events.emit_event_sync ⟨tid, .turnComplete tid msg⟩ }
      if s.wf.shutdown_requested then
        some { wf := { wf1 with
                  events := wf1.events.emit_event_sync ⟨"", .shutdownComplete⟩ },
               loc := .finished }
      else
        some { wf := wf1, loc := .waitingForTurn }
    | _ => none

/-- Run a list of actions from a state; fails if any action is disabled. -/
def run : MachineState → List Action → Option MachineState
  | s, [] => some s
  | s, a :: tr =>
    match step s a with
    | some s' => run s' tr
    | none => none

/-- Machine start state: the workflow fields from `CodexWorkflow::new` and
the run loop suspended at its first `wait_condition`. -/
def initMachineState (input : CodexWorkflowInput) : MachineState :=
  { wf := initWorkflowState input, loc := .waitingForTurn }

/-- Turn ids of a queue of pending turns. -/
def turn_ids (ts : List UserTurnInput) : List String :=
  ts.map UserTurnInput.turn_id

/-- Turn ids delivered by `receive_user_turn` signals in an action list,
in delivery order. -/
def action_turn_ids (tr : List Action) : List String :=
  tr.filterMap (fun a =>
    match a with
    | .sigUserTurn u => some u.turn_id
    | _ => none)

/-- The turn ids submitted to the workflow: the seeded `turn-0` (when
`user_message` is non-empty) followed by the `receive_user_turn` signal
payloads in delivery order. -/
def submitted_turn_ids (input : CodexWorkflowInput) (tr : List Action) :
    List String :=
  (if input.user_message.isEmpty then [] else ["turn-0"]) ++ action_turn_ids tr

/-- The turn ids carried by the `TurnStarted` events of an event list, in
emission order. -/
def started_turn_ids (evs : List Event) : List String :=
  evs.filterMap (fun e =>
    match e.msg with
    | .turnStarted tid => some tid
    | _ => none)

/-! ## src/workflow.rs — the inner model→tool loop, with iteration counts

The machine above abstracts iteration counting; the inner loop of lines
257–311 is embedded directly, parameterized by the outcome of each
`try_run_sampling_request` round. -/

/-- Outcome of one `try_run_sampling_request` round: `ok` carries the
round's `last_agent_message` and `needs_follow_up`; `err` is a failed
request (the loop breaks). -/
inductive SampleResult where
  | ok (last_agent_message : Option String) (needs_follow_up : Bool)
  | err
deriving DecidableEq

/-- `const MAX_ITERATIONS: u32 = 50`. -/
def MAX_ITERATIONS : Nat := 50

/-- The inner loop (workflow.rs lines 259–311): starting from the current
iteration count and `last_agent_message`, returns the final iteration
count, the final `last_agent_message`, and whether the loop broke on the
`iterations >= MAX_ITERATIONS` guard (the `tracing::warn!` branch). -/
def inner_loop (model : Nat → SampleResult) (iterations : Nat)
    (last : Option String) : Nat × Option String × Bool :=
  if _h : MAX_ITERATIONS ≤ iterations then (iterations, last, true)
  else
    match model iterations with
    | .ok msg follow =>
      let last' := match msg with | some m => some m | none => last
      if follow then inner_loop model (iterations + 1) last'
      else (iterations + 1, last', false)
    | .err => (iterations + 1, last, false)
termination_by MAX_ITERATIONS - iterations
decreasing_by omega

/-- One full turn of the run loop (lines 209–320), with the model calls
abstracted by `model`: emits `TurnStarted`, runs the inner loop from
iteration 0, emits `TurnComplete`.  Returns the emitted events, the
iteration count of the turn, and the updated `last_agent_message`. -/
def run_turn (model : Nat → SampleResult) (turn : UserTurnInput)
    (last : Option String) : List Event × Nat × Option String :=
  let r := inner_loop model 0 last
  ([⟨turn.turn_id, .turnStarted turn.turn_id⟩,
    ⟨turn.turn_id, .turnComplete turn.turn_id r.2.1⟩], r.1, r.2.1)

/-- The whole `run` method for the single-turn scenario (§8 item 6 of the
spec): a non-empty `user_message` seeds `turn-0`, no further turns arrive,
and shutdown is requested during the turn, so the loop exits after the
first `TurnComplete` and emits `ShutdownComplete`.  `total_iterations`
equals the single turn's iteration count. -/
def run_single_turn (model : Nat → SampleResult)
    (input : CodexWorkflowInput) : CodexWorkflowOutput × List Event :=
  let t := run_turn model { turn_id := "turn-0", message := input.user_message } none
  ({ last_agent_message := t.2.2, iterations := t.2.1 },
   t.1 ++ [⟨"", .shutdownComplete⟩])

/-! ## src/entropy.rs and src/adapters/entropy.rs — deterministic PRNGs -/

/-- One step of the xorshift64 PRNG of `TemporalRandomSource::next_u64`
(`x ^= x << 13; x ^= x >> 7; x ^= x << 17` on u64). -/
def xorshift64 (x : Nat) : Nat :=
  let x := (x ^^^ (x <<< 13)) % 2 ^ 64
  let x := x ^^^ (x >>> 7)
  (x ^^^ (x <<< 17)) % 2 ^ 64

/-- `TemporalRandomSource::new(seed)`: a zero seed is replaced by the fixed
non-zero constant. -/
def tm_seed (seed : Nat) : Nat :=
  if seed = 0 then 0xDEADBEEFCAFEBABE else seed

/-- Internal state of `TemporalRandomSource` after `n` calls to
`next_u64`. -/
def tm_state (seed : Nat) : Nat → Nat
  | 0 => tm_seed seed
  | n + 1 => xorshift64 (tm_state seed n)

/-- The `n`-th (0-based) value returned by `TemporalRandomSource::u64()`
when the calls are the only state advances. -/
def tm_u64 (seed n : Nat) : Nat := tm_state seed (n + 1)

/-- `WorkflowRandomSource::next_u64` (adapters/entropy.rs): a counter-based
mix of `seed.wrapping_add(counter)` with xor-shifts 12/25/27 and a
`wrapping_mul` by `0x2545F4914F6CDD1D`.  `counter` is the number of prior
`next_u64` calls. -/
def wf_next_u64 (seed counter : Nat) : Nat :=
  let state := (seed + counter) % 2 ^ 64
  let state := state ^^^ (state >>> 12)
  let state := (state ^^^ (state <<< 25)) % 2 ^ 64
  let state := state ^^^ (state >>> 27)
  (state * 0x2545F4914F6CDD1D) % 2 ^ 64

/-- Fuel-based floor of the base-2 logarithm (agrees with `Nat.log2` for
all inputs below `2 ^ 64`; written with structural recursion so the kernel
can evaluate it). -/
def log2_aux : Nat → Nat → Nat
  | 0, _ => 0
  | fuel + 1, x => if x < 2 then 0 else log2_aux fuel (x / 2) + 1

/-- Floor of log2 on the u64 range. -/
def log2_u64 (x : Nat) : Nat := log2_aux 64 x

/-- The integer actually represented by the Rust `u64 as f64` cast: round
to nearest, ties to even, 53-bit significand.  For `x < 2 ^ 53` the cast is
exact; otherwise the value is rounded to the representable grid of spacing
`2 ^ (log2 x - 52)`.  Every f64 obtained from a u64 cast has an integer
value, so the cast is fully described by this natural number.  No overflow
handling is needed in the u64 range. -/
def round_to_f64 (x : Nat) : Nat :=
  if x < 2 ^ 53 then x
  else
    let k := log2_u64 x - 52
    let q := x / 2 ^ k
    let r := x % 2 ^ k
    let q' :=
      if r * 2 < 2 ^ k then q
      else if 2 ^ k < r * 2 then q + 1
      else if q % 2 = 0 then q else q + 1
    q' * 2 ^ k

/-- Exact rational value of the Rust `u64 as f64` cast. -/
def cast_u64_to_f64 (x : Nat) : ℚ := (round_to_f64 x : ℚ)

/-- Exact value of `WorkflowRandomSource::f64()` on the `counter`-th call
(`(self.next_u64() as f64) / (u64::MAX as f64)`).  The IEEE division is
exact here — the numerator is a multiple of a power of two with a 53-bit
significand and the denominator rounds to `2 ^ 64` — so rational division
is a faithful model of it. -/
def wf_f64 (seed counter : Nat) : ℚ :=
  cast_u64_to_f64 (wf_next_u64 seed counter) / cast_u64_to_f64 (2 ^ 64 - 1)

/-! ## Claim theorems -/

/-- C6: for a buffer holding `n` events, `events_since 0` returns the full
serialized list with watermark `n`; `events_since k` with `n ≤ k` returns
the empty list with watermark `n`; and for `i < n` it returns exactly the
serialized suffix `events[i..n]` with watermark `n`.  The per-event
serialization `serde_json::to_string(..).ok()` is instantiated with an
always-succeeding function, matching the claim's premise that the events
are serializable. -/
theorem c6_events_since_spec (f : Event → String) (evs : List Event) :
    BufferEventSink.events_since (some ∘ f) ⟨evs⟩ 0 = (evs.map f, evs.length)
    ∧ (∀ (ser : Event → Option String) (k : Nat), evs.length ≤ k →
        BufferEventSink.events_since ser ⟨evs⟩ k = ([], evs.length))
    ∧ (∀ i : Nat, i < evs.length →
        BufferEventSink.events_since (some ∘ f) ⟨evs⟩ i
          = ((evs.drop i).map f, evs.length)) := by
  refine ⟨?_, ?_, ?_⟩
  · cases evs with
    | nil => rfl
    | cons e es => simp [BufferEventSink.events_since, List.filterMap_eq_map]
  · intro ser k hk
    simp only [BufferEventSink.events_since]
    rw [if_pos hk]
  · intro i hi
    simp only [BufferEventSink.events_since]
    rw [if_neg (by omega)]
    simp [List.filterMap_eq_map]

/-- C6 witness: the theorem applied to a concrete two-event buffer, with
the watermark query made at indices 0, 5 and 1. -/
theorem c6_events_since_witness :
    BufferEventSink.events_since (some ∘ Event.id)
        ⟨[⟨"a", .shutdownComplete⟩, ⟨"b", .agentMessage "x"⟩]⟩ 0
      = (["a", "b"], 2)
    ∧ BufferEventSink.events_since (fun _ => none)
        ⟨[⟨"a", .shutdownComplete⟩, ⟨"b", .agentMessage "x"⟩]⟩ 5
      = ([], 2)
    ∧ BufferEventSink.events_since (some ∘ Event.id)
        ⟨[⟨"a", .shutdownComplete⟩, ⟨"b", .agentMessage "x"⟩]⟩ 1
      = (["b"], 2) := by
  have h := c6_events_since_spec Event.id
    [⟨"a", .shutdownComplete⟩, ⟨"b", .agentMessage "x"⟩]
  exact ⟨h.1, h.2.1 (fun _ => none) 5 (by decide), h.2.2 1 (by decide)⟩

/-- C9 (amended): `get_events_since` leaves the workflow state unchanged,
but the legacy `get_events` query calls `drain`, which resets the event
buffer to empty — so only `get_events_since` is a read-only query. -/
theorem c9_query_state (ser : Event → Option String) (dbg : Event → String)
    (st : CodexWorkflowState) (i : Nat) :
    (st.get_events_since ser i).2 = st
    ∧ (st.get_events dbg).2 = { st with events := ⟨[]⟩ } :=
  ⟨rfl, rfl⟩

/-- C9 counterexample: on a state whose buffer holds one event, executing
the legacy `get_events` query changes the event buffer (it becomes empty),
refuting the claim that every workflow query leaves the buffer's contents
and length unchanged. -/
theorem c9_get_events_mutates :
    (CodexWorkflowState.get_events (fun _ => "")
        { user_turns := [], pending_approval := none, shutdown_requested := false,
          events := ⟨[⟨"", .shutdownComplete⟩]⟩ }).2.events
      ≠ ({ user_turns := [], pending_approval := none, shutdown_requested := false,
           events := ⟨[⟨"", .shutdownComplete⟩]⟩ } : CodexWorkflowState).events := by
  decide

/-- C7: with `pending_approval = Some {call_id = c, ..}`, delivering
`ExecApproval {c, approved = true}` sets the decision; delivering it again
before the handler resumes changes nothing; and after the handler reads
and clears the decision (`read_and_clear_decision`), delivering it once
more is dropped because no pending approval remains — at most one state
transition in total. -/
theorem c7_duplicate_approval (st : CodexWorkflowState) (c : String)
    (d : Option Bool) (h : st.pending_approval = some ⟨c, d⟩) :
    (st.receive_approval ⟨c, true⟩).pending_approval = some ⟨c, some true⟩
    ∧ (st.receive_approval ⟨c, true⟩).receive_approval ⟨c, true⟩
        = st.receive_approval ⟨c, true⟩
    ∧ (read_and_clear_decision (st.receive_approval ⟨c, true⟩)).1 = true
    ∧ (read_and_clear_decision (st.receive_approval ⟨c, true⟩)).2.receive_approval
          ⟨c, true⟩
        = (read_and_clear_decision (st.receive_approval ⟨c, true⟩)).2 := by
  simp [CodexWorkflowState.receive_approval, read_and_clear_decision, h]

/-- C7 witness: the theorem applied to a concrete state whose pending
approval is `{call_id := "call-1", decision := none}`. -/
theorem c7_duplicate_approval_witness :
    (CodexWorkflowState.receive_approval
        ⟨[], some ⟨"call-1", none⟩, false, ⟨[]⟩⟩ ⟨"call-1", true⟩).pending_approval
      = some ⟨"call-1", some true⟩
    ∧ (CodexWorkflowState.receive_approval
        ⟨[], some ⟨"call-1", none⟩, false, ⟨[]⟩⟩ ⟨"call-1", true⟩).receive_approval
          ⟨"call-1", true⟩
      = CodexWorkflowState.receive_approval
          ⟨[], some ⟨"call-1", none⟩, false, ⟨[]⟩⟩ ⟨"call-1", true⟩
    ∧ (read_and_clear_decision (CodexWorkflowState.receive_approval
        ⟨[], some ⟨"call-1", none⟩, false, ⟨[]⟩⟩ ⟨"call-1", true⟩)).1 = true
    ∧ (read_and_clear_decision (CodexWorkflowState.receive_approval
        ⟨[], some ⟨"call-1", none⟩, false, ⟨[]⟩⟩ ⟨"call-1", true⟩)).2.receive_approval
          ⟨"call-1", true⟩
      = (read_and_clear_decision (CodexWorkflowState.receive_approval
          ⟨[], some ⟨"call-1", none⟩, false, ⟨[]⟩⟩ ⟨"call-1", true⟩)).2 :=
  c7_duplicate_approval ⟨[], some ⟨"call-1", none⟩, false, ⟨[]⟩⟩ "call-1" none rfl

/-- C1: the approval gate matches the policy exactly — `Never` never asks,
`UnlessTrusted` skips approval iff `is_known_safe_command` accepts the
parsed command vector, `OnRequest` and `OnFailure` always ask; and in every
no-approval case the handler dispatches `tool_exec` while leaving the state
untouched: no `ExecApprovalRequest` event is emitted and `pending_approval`
is not set. -/
theorem c1_approval_policy (is_known_safe_command : List String → Bool)
    (policy : AskForApproval) (command : List String)
    (tool_name call_id turn_id arguments : String)
    (env : CodexWorkflowState → CodexWorkflowState) (st : CodexWorkflowState) :
    needs_approval is_known_safe_command .never command = false
    ∧ needs_approval is_known_safe_command .unlessTrusted command
        = !is_known_safe_command command
    ∧ needs_approval is_known_safe_command .onRequest command = true
    ∧ needs_approval is_known_safe_command .onFailure command = true
    ∧ (needs_approval is_known_safe_command policy command = false →
        handle_tool_call is_known_safe_command policy command
            tool_name call_id turn_id arguments env st
          = (st, .dispatched ⟨tool_name, call_id, arguments⟩)) := by
  refine ⟨rfl, rfl, rfl, rfl, fun hfalse => ?_⟩
  simp [handle_tool_call, hfalse]

/-- C1 witness: under policy `Never` a concrete call is dispatched with no
event and no pending approval. -/
theorem c1_approval_policy_witness :
    needs_approval (fun c => c == ["ls"]) .never ["echo", "hi"] = false
    ∧ needs_approval (fun c => c == ["ls"]) .unlessTrusted ["echo", "hi"]
        = !(fun c => c == ["ls"]) ["echo", "hi"]
    ∧ needs_approval (fun c => c == ["ls"]) .onRequest ["echo", "hi"] = true
    ∧ needs_approval (fun c => c == ["ls"]) .onFailure ["echo", "hi"] = true
    ∧ handle_tool_call (fun c => c == ["ls"]) .never ["echo", "hi"]
          "shell" "c1" "t1" "{}" (fun s => s) ⟨[], none, false, ⟨[]⟩⟩
        = (⟨[], none, false, ⟨[]⟩⟩, .dispatched ⟨"shell", "c1", "{}"⟩) := by
  have h := c1_approval_policy (fun c => c == ["ls"]) .never ["echo", "hi"]
    "shell" "c1" "t1" "{}" (fun s => s) ⟨[], none, false, ⟨[]⟩⟩
  exact ⟨h.1, h.2.1, h.2.2.1, h.2.2.2.1, h.2.2.2.2 rfl⟩

/-- C2: when approval is required and the resolved decision is a denial,
the handler returns the synthesized `function_call_output` with
`success = Some(false)`, body text "Tool execution was denied by the
user." and metadata exit code 1, and the `tool_exec` activity is not
dispatched (the result is `denied`, not `dispatched`). -/
theorem c2_denied_response (is_known_safe_command : List String → Bool)
    (policy : AskForApproval) (command : List String)
    (tool_name call_id turn_id arguments : String)
    (env : CodexWorkflowState → CodexWorkflowState) (st : CodexWorkflowState)
    (hneeds : needs_approval is_known_safe_command policy command = true)
    (hdeny : ((env (set_pending_and_request st call_id turn_id command)).pending_approval.bind
        PendingApproval.decision).getD false = false) :
    handle_tool_call is_known_safe_command policy command
        tool_name call_id turn_id arguments env st
      = ({ env (set_pending_and_request st call_id turn_id command) with
            pending_approval := none },
         .denied (denied_response call_id))
    ∧ denied_response call_id
        = .functionCallOutput call_id
            { body := { output := "Tool execution was denied by the user.",
                        exit_code := 1, duration_seconds := 0 },
              success := some false } := by
  constructor
  · simp [handle_tool_call, hneeds, read_and_clear_decision, hdeny]
  · rfl

/-- C2 witness: a concrete denied call under policy `OnRequest`, where the
environment delivers `ExecApproval {call_id := "c1", approved := false}`
during the suspension. -/
theorem c2_denied_response_witness :
    handle_tool_call (fun c => c == ["ls"]) .onRequest ["rm", "-rf", "/"]
        "shell" "c1" "t1" "{}"
        (fun s => s.receive_approval ⟨"c1", false⟩) ⟨[], none, false, ⟨[]⟩⟩
      = ({ (fun (s : CodexWorkflowState) => s.receive_approval ⟨"c1", false⟩)
            (set_pending_and_request ⟨[], none, false, ⟨[]⟩⟩ "c1" "t1" ["rm", "-rf", "/"]) with
            pending_approval := none },
         .denied (denied_response "c1"))
    ∧ denied_response "c1"
        = .functionCallOutput "c1"
            { body := { output := "Tool execution was denied by the user.",
                        exit_code := 1, duration_seconds := 0 },
              success := some false } :=
  c2_denied_response (fun c => c == ["ls"]) .onRequest ["rm", "-rf", "/"]
    "shell" "c1" "t1" "{}" (fun s => s.receive_approval ⟨"c1", false⟩)
    ⟨[], none, false, ⟨[]⟩⟩ rfl (by decide)

/-- C8 (code bug): `WorkflowRandomSource::f64` is documented to return a
value in `[0, 1)`, but for seed 12165231662994148584 the first call
returns exactly 1.0: the mixed u64 is `2 ^ 64 - 1`, and both it and
`u64::MAX` round to `2 ^ 64` in the f64 casts, so the division yields 1. -/
theorem c8_wf_f64_reaches_one :
    wf_f64 12165231662994148584 0 = 1
    ∧ ¬ wf_f64 12165231662994148584 0 < 1 := by
  have h1 : round_to_f64 (wf_next_u64 12165231662994148584 0) = 2 ^ 64 := by decide
  have h2 : round_to_f64 (2 ^ 64 - 1) = 2 ^ 64 := by decide
  have heq : wf_f64 12165231662994148584 0 = 1 := by
    unfold wf_f64 cast_u64_to_f64
    rw [h1, h2]
    norm_num
  exact ⟨heq, by rw [heq]; exact lt_irrefl 1⟩

/-! ## Helper lemmas about signal deliveries -/

/-- Delivering one approval signal preserves "the pending approval is
absent or carries call id `c`": `receive_approval` never changes the
stored `call_id` and never creates a pending approval. -/
theorem receive_approval_pending_call_id (t : CodexWorkflowState)
    (a : ApprovalInput) (c : String)
    (h : t.pending_approval = none ∨ ∃ d, t.pending_approval = some ⟨c, d⟩) :
    (t.receive_approval a).pending_approval = none
    ∨ ∃ d, (t.receive_approval a).pending_approval = some ⟨c, d⟩ := by
  rcases h with h | ⟨d, h⟩
  · simp [CodexWorkflowState.receive_approval, h]
  · simp only [CodexWorkflowState.receive_approval, h]
    split
    · exact Or.inr ⟨some a.approved, rfl⟩
    · exact Or.inr ⟨d, h⟩

/-- Any sequence of signal deliveries preserves "the pending approval is
absent or carries call id `c`". -/
theorem signalSteps_pending_call_id {s t : CodexWorkflowState} {c : String}
    (h : SignalSteps s t)
    (hs : s.pending_approval = none ∨ ∃ d, s.pending_approval = some ⟨c, d⟩) :
    t.pending_approval = none ∨ ∃ d, t.pending_approval = some ⟨c, d⟩ := by
  induction h with
  | refl => exact hs
  | userTurn u _ ih => exact ih
  | approval a _ ih => exact receive_approval_pending_call_id _ a c ih
  | shutdown _ ih => exact ih

/-- C10: the approval gate fails closed.  With approval required, the
handler dispatches `tool_exec` exactly when the state at wake-up carries a
decision `Some(true)` recorded for the handler's own call id (signal
deliveries being the only state changes during the suspension); if the
pending approval is gone at wake-up, the missing decision defaults to
`false` and the call is denied; and the handler always resumes with
`pending_approval` cleared. -/
theorem c10_fail_closed (is_known_safe_command : List String → Bool)
    (policy : AskForApproval) (command : List String)
    (tool_name call_id turn_id arguments : String)
    (env : CodexWorkflowState → CodexWorkflowState) (st : CodexWorkflowState)
    (henv : ∀ s, SignalSteps s (env s))
    (hneeds : needs_approval is_known_safe_command policy command = true) :
    ((handle_tool_call is_known_safe_command policy command
          tool_name call_id turn_id arguments env st).2
        = .dispatched ⟨tool_name, call_id, arguments⟩
      ↔ (env (set_pending_and_request st call_id turn_id command)).pending_approval
          = some ⟨call_id, some true⟩)
    ∧ ((env (set_pending_and_request st call_id turn_id command)).pending_approval
          = none →
        (handle_tool_call is_known_safe_command policy command
            tool_name call_id turn_id arguments env st).2
          = .denied (denied_response call_id))
    ∧ (handle_tool_call is_known_safe_command policy command
          tool_name call_id turn_id arguments env st).1.pending_approval = none := by
  have hmatch := signalSteps_pending_call_id
    (henv (set_pending_and_request st call_id turn_id command))
    (Or.inr ⟨none, rfl⟩)
  have h3 : (handle_tool_call is_known_safe_command policy command
      tool_name call_id turn_id arguments env st).1.pending_approval = none := by
    simp only [handle_tool_call, hneeds, if_true, read_and_clear_decision]
    split <;> rfl
  rcases hmatch with hnone | ⟨d, hsome⟩
  · refine ⟨?_, fun _ => ?_, h3⟩ <;>
      simp [handle_tool_call, hneeds, read_and_clear_decision, hnone]
  · match d with
    | none =>
      refine ⟨?_, fun hn => ?_, h3⟩
      · simp [handle_tool_call, hneeds, read_and_clear_decision, hsome]
      · rw [hsome] at hn; cases hn
    | some true =>
      refine ⟨?_, fun hn => ?_, h3⟩
      · simp [handle_tool_call, hneeds, read_and_clear_decision, hsome]
      · rw [hsome] at hn; cases hn
    | some false =>
      refine ⟨?_, fun hn => ?_, h3⟩
      · simp [handle_tool_call, hneeds, read_and_clear_decision, hsome]
      · rw [hsome] at hn; cases hn

/-- C10 witness: a concrete call under policy `OnRequest` where the
environment delivers an approving signal for the matching call id during
the suspension, so the dispatch condition is exercised on both sides of
the equivalence. -/
theorem c10_fail_closed_witness :
    ((handle_tool_call (fun c => c == ["ls"]) .onRequest ["rm", "-rf", "/"]
          "shell" "c1" "t1" "{}"
          (fun s => s.receive_approval ⟨"c1", true⟩) ⟨[], none, false, ⟨[]⟩⟩).2
        = .dispatched ⟨"shell", "c1", "{}"⟩
      ↔ ((fun (s : CodexWorkflowState) => s.receive_approval ⟨"c1", true⟩)
            (set_pending_and_request ⟨[], none, false, ⟨[]⟩⟩ "c1" "t1"
              ["rm", "-rf", "/"])).pending_approval
          = some ⟨"c1", some true⟩)
    ∧ (((fun (s : CodexWorkflowState) => s.receive_approval ⟨"c1", true⟩)
            (set_pending_and_request ⟨[], none, false, ⟨[]⟩⟩ "c1" "t1"
              ["rm", "-rf", "/"])).pending_approval = none →
        (handle_tool_call (fun c => c == ["ls"]) .onRequest ["rm", "-rf", "/"]
            "shell" "c1" "t1" "{}"
            (fun s => s.receive_approval ⟨"c1", true⟩) ⟨[], none, false, ⟨[]⟩⟩).2
          = .denied (denied_response "c1"))
    ∧ (handle_tool_call (fun c => c == ["ls"]) .onRequest ["rm", "-rf", "/"]
          "shell" "c1" "t1" "{}"
          (fun s => s.receive_approval ⟨"c1", true⟩)
          ⟨[], none, false, ⟨[]⟩⟩).1.pending_approval = none :=
  c10_fail_closed (fun c => c == ["ls"]) .onRequest ["rm", "-rf", "/"]
    "shell" "c1" "t1" "{}" (fun s => s.receive_approval ⟨"c1", true⟩)
    ⟨[], none, false, ⟨[]⟩⟩
    (fun s => SignalSteps.approval ⟨"c1", true⟩ (SignalSteps.refl s)) rfl

/-! ## Helper lemmas for the inner loop -/

/-- The inner loop performs at most `MAX_ITERATIONS` sampling rounds:
starting at an iteration count below the cap, the final count never
exceeds the cap. -/
theorem inner_loop_iterations_le (model : Nat → SampleResult) (fuel : Nat) :
    ∀ (it : Nat) (last : Option String), MAX_ITERATIONS - it ≤ fuel →
      it ≤ MAX_ITERATIONS → (inner_loop model it last).1 ≤ MAX_ITERATIONS := by
  induction fuel with
  | zero =>
    intro it last hf hle
    have hit : MAX_ITERATIONS ≤ it := by omega
    unfold inner_loop
    rw [dif_pos hit]
    exact hle
  | succ f ih =>
    intro it last hf hle
    unfold inner_loop
    by_cases hit : MAX_ITERATIONS ≤ it
    · rw [dif_pos hit]
      exact hle
    · rw [dif_neg hit]
      cases hm : model it with
      | ok msg follow =>
        cases follow with
        | true => exact ih (it + 1) _ (by omega) (by omega)
        | false => show it + 1 ≤ MAX_ITERATIONS; omega
      | err => show it + 1 ≤ MAX_ITERATIONS; omega

/-- With a model outcome that always needs a follow-up (the model always
emits a tool call), the inner loop runs until the `MAX_ITERATIONS` guard
fires: the final count is exactly the cap and the warning branch is
taken. -/
theorem inner_loop_exhausts (model : Nat → SampleResult)
    (h : ∀ n, ∃ m, model n = SampleResult.ok m true) (fuel : Nat) :
    ∀ (it : Nat) (last : Option String), MAX_ITERATIONS - it ≤ fuel →
      it ≤ MAX_ITERATIONS →
      (inner_loop model it last).1 = MAX_ITERATIONS
      ∧ (inner_loop model it last).2.2 = true := by
  induction fuel with
  | zero =>
    intro it last hf hle
    have heq : it = MAX_ITERATIONS := by omega
    subst heq
    unfold inner_loop
    rw [dif_pos le_rfl]
    exact ⟨rfl, rfl⟩
  | succ f ih =>
    intro it last hf hle
    unfold inner_loop
    by_cases hit : MAX_ITERATIONS ≤ it
    · have heq : it = MAX_ITERATIONS := by omega
      subst heq
      rw [dif_pos le_rfl]
      exact ⟨rfl, rfl⟩
    · rw [dif_neg hit]
      obtain ⟨m, hm⟩ := h it
      rw [hm]
      exact ih (it + 1) _ (by omega) (by omega)

/-- C5: the inner model→tool loop samples at most `MAX_ITERATIONS = 50`
times per turn; with a model that always emits a tool call it stops after
exactly 50 iterations with the warning branch taken, the turn still emits
`TurnComplete`, and the workflow result's `iterations` field equals 50. -/
theorem c5_max_iterations (input : CodexWorkflowInput)
    (model : Nat → SampleResult)
    (h : ∀ n, ∃ m, model n = SampleResult.ok m true) :
    (∀ (other : Nat → SampleResult) (last : Option String),
        (inner_loop other 0 last).1 ≤ 50)
    ∧ (inner_loop model 0 none).1 = 50
    ∧ (inner_loop model 0 none).2.2 = true
    ∧ (run_single_turn model input).1.iterations = 50
    ∧ (run_single_turn model input).2
        = [⟨"turn-0", .turnStarted "turn-0"⟩,
           ⟨"turn-0", .turnComplete "turn-0" (inner_loop model 0 none).2.1⟩,
           ⟨"", .shutdownComplete⟩] := by
  have hex := inner_loop_exhausts model h MAX_ITERATIONS 0 none (by omega) (by omega)
  refine ⟨?_, hex.1, hex.2, ?_, rfl⟩
  · intro other last
    exact inner_loop_iterations_le other MAX_ITERATIONS 0 last (by omega) (by omega)
  · show (inner_loop model 0 none).1 = 50
    exact hex.1

/-- C5 witness: the theorem applied to a concrete always-tool-calling
model and a concrete workflow input. -/
theorem c5_max_iterations_witness :
    (∀ (other : Nat → SampleResult) (last : Option String),
        (inner_loop other 0 last).1 ≤ 50)
    ∧ (inner_loop (fun _ => .ok none true) 0 none).1 = 50
    ∧ (inner_loop (fun _ => .ok none true) 0 none).2.2 = true
    ∧ (run_single_turn (fun _ => .ok none true)
          ⟨"hi", "gpt", "inst", .onRequest, none⟩).1.iterations = 50
    ∧ (run_single_turn (fun _ => .ok none true)
          ⟨"hi", "gpt", "inst", .onRequest, none⟩).2
        = [⟨"turn-0", .turnStarted "turn-0"⟩,
           ⟨"turn-0", .turnComplete "turn-0"
              (inner_loop (fun _ => .ok none true) 0 none).2.1⟩,
           ⟨"", .shutdownComplete⟩] :=
  c5_max_iterations ⟨"hi", "gpt", "inst", .onRequest, none⟩
    (fun _ => .ok none true) (fun _ => ⟨none, rfl⟩)

/-! ## Helper lemmas for the run-loop machine -/

/-- Delivering an approval signal never changes the turn queue. -/
theorem receive_approval_user_turns (s : CodexWorkflowState) (a : ApprovalInput) :
    (s.receive_approval a).user_turns = s.user_turns := by
  unfold CodexWorkflowState.receive_approval
  split
  · split <;> rfl
  · rfl

/-- Delivering an approval signal never changes the event buffer. -/
theorem receive_approval_events (s : CodexWorkflowState) (a : ApprovalInput) :
    (s.receive_approval a).events = s.events := by
  unfold CodexWorkflowState.receive_approval
  split
  · split <;> rfl
  · rfl

/-- Splitting `started_turn_ids` over an appended event. -/
theorem started_turn_ids_append (evs : List Event) (e : Event) :
    started_turn_ids (evs ++ [e])
      = started_turn_ids evs ++ started_turn_ids [e] := by
  simp [started_turn_ids]

/-- Splitting `action_turn_ids` over the head action. -/
theorem action_turn_ids_cons (a : Action) (tr : List Action) :
    action_turn_ids (a :: tr) = action_turn_ids [a] ++ action_turn_ids tr := by
  cases a <;> simp [action_turn_ids]

/-- One machine step grows "started turn ids followed by still-queued turn
ids" by exactly the turn ids submitted by the step: startTurn moves the
head of the queue into the started list, signals append to the queue's
end, and nothing else touches either list. -/
theorem step_queue (s : MachineState) (a : Action) (s' : MachineState)
    (h : step s a = some s') :
    started_turn_ids s'.wf.events.events ++ turn_ids s'.wf.user_turns
      = (started_turn_ids s.wf.events.events ++ turn_ids s.wf.user_turns)
          ++ action_turn_ids [a] := by
  cases a with
  | sigUserTurn u =>
    simp only [step] at h
    injection h with h
    subst h
    simp [CodexWorkflowState.receive_user_turn, turn_ids, action_turn_ids]
  | sigApproval ap =>
    simp only [step] at h
    injection h with h
    subst h
    simp [receive_approval_events, receive_approval_user_turns, action_turn_ids]
  | sigShutdown =>
    simp only [step] at h
    injection h with h
    subst h
    simp [CodexWorkflowState.request_shutdown, action_turn_ids]
  | startTurn =>
    cases hl : s.loc with
    | waitingForTurn =>
      cases hq : s.wf.user_turns with
      | nil =>
        simp only [step, hl, hq] at h
        exact Option.noConfusion h
      | cons t rest =>
        simp only [step, hl, hq] at h
        injection h with h
        subst h
        simp [BufferEventSink.emit_event_sync, started_turn_ids_append,
          started_turn_ids, turn_ids, action_turn_ids, hq]
    | inTurn tid => simp only [step, hl] at h; exact Option.noConfusion h
    | awaitingApproval c t => simp only [step, hl] at h; exact Option.noConfusion h
    | finished => simp only [step, hl] at h; exact Option.noConfusion h
  | exitShutdown =>
    cases hl : s.loc with
    | waitingForTurn =>
      simp only [step, hl] at h
      by_cases hc : s.wf.shutdown_requested && s.wf.user_turns.isEmpty
      · rw [if_pos hc] at h
        injection h with h
        subst h
        simp [BufferEventSink.emit_event_sync, started_turn_ids_append,
          started_turn_ids, action_turn_ids]
      · rw [if_neg hc] at h
        exact Option.noConfusion h
    | inTurn tid => simp only [step, hl] at h; exact Option.noConfusion h
    | awaitingApproval c t => simp only [step, hl] at h; exact Option.noConfusion h
    | finished => simp only [step, hl] at h; exact Option.noConfusion h
  | emitAgentMessage text =>
    cases hl : s.loc with
    | inTurn tid =>
      simp only [step, hl] at h
      injection h with h
      subst h
      simp [BufferEventSink.emit_event_sync, started_turn_ids_append,
        started_turn_ids, action_turn_ids]
    | waitingForTurn => simp only [step, hl] at h; exact Option.noConfusion h
    | awaitingApproval c t => simp only [step, hl] at h; exact Option.noConfusion h
    | finished => simp only [step, hl] at h; exact Option.noConfusion h
  | requestApproval call_id command =>
    cases hl : s.loc with
    | inTurn tid =>
      simp only [step, hl] at h
      injection h with h
      subst h
      simp [set_pending_and_request, approval_request_event,
        BufferEventSink.emit_event_sync, started_turn_ids_append,
        started_turn_ids, action_turn_ids]
    | waitingForTurn => simp only [step, hl] at h; exact Option.noConfusion h
    | awaitingApproval c t => simp only [step, hl] at h; exact Option.noConfusion h
    | finished => simp only [step, hl] at h; exact Option.noConfusion h
  | resolveApproval =>
    cases hl : s.loc with
    | awaitingApproval c tid =>
      simp only [step, hl] at h
      by_cases hc : (s.wf.pending_approval.map (fun p => p.decision.isSome)).getD true
      · rw [if_pos hc] at h
        injection h with h
        subst h
        simp [read_and_clear_decision, action_turn_ids]
      · rw [if_neg hc] at h
        exact Option.noConfusion h
    | waitingForTurn => simp only [step, hl] at h; exact Option.noConfusion h
    | inTurn tid => simp only [step, hl] at h; exact Option.noConfusion h
    | finished => simp only [step, hl] at h; exact Option.noConfusion h
  | finishTurn msg =>
    cases hl : s.loc with
    | inTurn tid =>
      simp only [step, hl] at h
      by_cases hc : s.wf.shutdown_requested
      · rw [if_pos hc] at h
        injection h with h
        subst h
        simp [BufferEventSink.emit_event_sync, started_turn_ids_append,
          started_turn_ids, action_turn_ids]
      · rw [if_neg hc] at h
        injection h with h
        subst h
        simp [BufferEventSink.emit_event_sync, started_turn_ids_append,
          started_turn_ids, action_turn_ids]
    | waitingForTurn => simp only [step, hl] at h; exact Option.noConfusion h
    | awaitingApproval c t => simp only [step, hl] at h; exact Option.noConfusion h
    | finished => simp only [step, hl] at h; exact Option.noConfusion h

/-- Lifting `step_queue` along a run. -/
theorem run_queue : ∀ (tr : List Action) (s s' : MachineState),
    run s tr = some s' →
    started_turn_ids s'.wf.events.events ++ turn_ids s'.wf.user_turns
      = (started_turn_ids s.wf.events.events ++ turn_ids s.wf.user_turns)
          ++ action_turn_ids tr := by
  intro tr
  induction tr with
  | nil =>
    intro s s' h
    simp only [run] at h
    injection h with h
    subst h
    simp [action_turn_ids]
  | cons a tr ih =>
    intro s s' h
    simp only [run] at h
    cases hst : step s a with
    | none => rw [hst] at h; exact Option.noConfusion h
    | some s₁ =>
      rw [hst] at h
      rw [ih s₁ s' h, step_queue s a s₁ hst, action_turn_ids_cons a tr]
      exact List.append_assoc _ _ _

/-- Preservation of any state predicate along a run. -/
theorem run_preserves (P : MachineState → Prop)
    (hstep : ∀ s a s', step s a = some s' → P s → P s') :
    ∀ (tr : List Action) (s s' : MachineState), run s tr = some s' → P s → P s' := by
  intro tr
  induction tr with
  | nil =>
    intro s s' h hp
    simp only [run] at h
    injection h with h
    subst h
    exact hp
  | cons a tr ih =>
    intro s s' h hp
    simp only [run] at h
    cases hst : step s a with
    | none => rw [hst] at h; exact Option.noConfusion h
    | some s₁ =>
      rw [hst] at h
      exact ih s₁ s' h (hstep s a s₁ hst hp)

/-- Boolean discriminator: is the run loop suspended inside the tool
handler's await on an approval decision? -/
def Loc.is_awaiting_approval : Loc → Bool
  | .awaitingApproval _ _ => true
  | _ => false

/-- Boolean discriminator: is the run loop inside a turn? -/
def Loc.is_in_turn : Loc → Bool
  | .inTurn _ => true
  | _ => false

/-- The C4 invariant: `pending_approval` is set only while the loop is
suspended inside the tool handler's approval await. -/
def PendingOnlyWhileAwaiting (s : MachineState) : Prop :=
  s.wf.pending_approval = none ∨ s.loc.is_awaiting_approval = true

/-- One machine step preserves the C4 invariant. -/
theorem step_pending_inv (s : MachineState) (a : Action) (s' : MachineState)
    (h : step s a = some s') (hs : PendingOnlyWhileAwaiting s) :
    PendingOnlyWhileAwaiting s' := by
  cases a with
  | sigUserTurn u =>
    simp only [step] at h
    injection h with h
    subst h
    rcases hs with hn | hl
    · exact Or.inl hn
    · exact Or.inr hl
  | sigApproval ap =>
    simp only [step] at h
    injection h with h
    subst h
    rcases hs with hn | hl
    · exact Or.inl (by simp [CodexWorkflowState.receive_approval, hn])
    · exact Or.inr hl
  | sigShutdown =>
    simp only [step] at h
    injection h with h
    subst h
    rcases hs with hn | hl
    · exact Or.inl hn
    · exact Or.inr hl
  | startTurn =>
    cases hl : s.loc with
    | waitingForTurn =>
      cases hq : s.wf.user_turns with
      | nil => simp only [step, hl, hq] at h; exact Option.noConfusion h
      | cons t rest =>
        simp only [step, hl, hq] at h
        injection h with h
        subst h
        rcases hs with hn | haw
        · exact Or.inl hn
        · rw [hl] at haw
          simp [Loc.is_awaiting_approval] at haw
    | inTurn tid => simp only [step, hl] at h; exact Option.noConfusion h
    | awaitingApproval c t => simp only [step, hl] at h; exact Option.noConfusion h
    | finished => simp only [step, hl] at h; exact Option.noConfusion h
  | exitShutdown =>
    cases hl : s.loc with
    | waitingForTurn =>
      simp only [step, hl] at h
      by_cases hc : s.wf.shutdown_requested && s.wf.user_turns.isEmpty
      · rw [if_pos hc] at h
        injection h with h
        subst h
        rcases hs with hn | haw
        · exact Or.inl hn
        · rw [hl] at haw
          simp [Loc.is_awaiting_approval] at haw
      · rw [if_neg hc] at h
        exact Option.noConfusion h
    | inTurn tid => simp only [step, hl] at h; exact Option.noConfusion h
    | awaitingApproval c t => simp only [step, hl] at h; exact Option.noConfusion h
    | finished => simp only [step, hl] at h; exact Option.noConfusion h
  | emitAgentMessage text =>
    cases hl : s.loc with
    | inTurn tid =>
      simp only [step, hl] at h
      injection h with h
      subst h
      rcases hs with hn | haw
      · exact Or.inl hn
      · rw [hl] at haw
        simp [Loc.is_awaiting_approval] at haw
    | waitingForTurn => simp only [step, hl] at h; exact Option.noConfusion h
    | awaitingApproval c t => simp only [step, hl] at h; exact Option.noConfusion h
    | finished => simp only [step, hl] at h; exact Option.noConfusion h
  | requestApproval call_id command =>
    cases hl : s.loc with
    | inTurn tid =>
      simp only [step, hl] at h
      injection h with h
      subst h
      exact Or.inr rfl
    | waitingForTurn => simp only [step, hl] at h; exact Option.noConfusion h
    | awaitingApproval c t => simp only [step, hl] at h; exact Option.noConfusion h
    | finished => simp only [step, hl] at h; exact Option.noConfusion h
  | resolveApproval =>
    cases hl : s.loc with
    | awaitingApproval c tid =>
      simp only [step, hl] at h
      by_cases hc : (s.wf.pending_approval.map (fun p => p.decision.isSome)).getD true
      · rw [if_pos hc] at h
        injection h with h
        subst h
        exact Or.inl rfl
      · rw [if_neg hc] at h
        exact Option.noConfusion h
    | waitingForTurn => simp only [step, hl] at h; exact Option.noConfusion h
    | inTurn tid => simp only [step, hl] at h; exact Option.noConfusion h
    | finished => simp only [step, hl] at h; exact Option.noConfusion h
  | finishTurn msg =>
    cases hl : s.loc with
    | inTurn tid =>
      simp only [step, hl] at h
      rcases hs with hn | haw
      · by_cases hc : s.wf.shutdown_requested
        · rw [if_pos hc] at h
          injection h with h
          subst h
          exact Or.inl hn
        · rw [if_neg hc] at h
          injection h with h
          subst h
          exact Or.inl hn
      · rw [hl] at haw
        simp [Loc.is_awaiting_approval] at haw
    | waitingForTurn => simp only [step, hl] at h; exact Option.noConfusion h
    | awaitingApproval c t => simp only [step, hl] at h; exact Option.noConfusion h
    | finished => simp only [step, hl] at h; exact Option.noConfusion h

/-- C3: along every run of the workflow machine, the turn ids of the
emitted `TurnStarted` events followed by the turn ids still queued in
`user_turns` equal the submitted turn ids in submission order — so the
`TurnStarted` ids are a prefix of the submitted ids.  Moreover a turn can
only start from the idle `waitingForTurn` location (so no two turns run
concurrently) and starting a turn dequeues exactly the head of
`user_turns` (strict FIFO), emitting its `TurnStarted` event. -/
theorem c3_turn_fifo (input : CodexWorkflowInput) (tr : List Action)
    (s s₀ s₁ : MachineState) (t : UserTurnInput) (rest : List UserTurnInput)
    (h : run (initMachineState input) tr = some s)
    (hstep : step s₀ .startTurn = some s₁)
    (hq : s₀.wf.user_turns = t :: rest) :
    started_turn_ids s.wf.events.events ++ turn_ids s.wf.user_turns
        = submitted_turn_ids input tr
    ∧ s₀.loc = .waitingForTurn
    ∧ s₁.wf.user_turns = rest
    ∧ s₁.wf.events.events
        = s₀.wf.events.events ++ [⟨t.turn_id, .turnStarted t.turn_id⟩]
    ∧ s₁.loc = .inTurn t.turn_id := by
  have hrun := run_queue tr (initMachineState input) s h
  have hinit : started_turn_ids (initMachineState input).wf.events.events
      ++ turn_ids (initMachineState input).wf.user_turns
      = if input.user_message.isEmpty then [] else ["turn-0"] := by
    by_cases hm : input.user_message.isEmpty <;>
      simp [initMachineState, initWorkflowState, BufferEventSink.new,
        started_turn_ids, turn_ids, hm]
  have hloc : s₀.loc = .waitingForTurn := by
    cases hl : s₀.loc with
    | waitingForTurn => rfl
    | inTurn tid =>
      simp only [step, hl] at hstep; exact Option.noConfusion hstep
    | awaitingApproval c t' =>
      simp only [step, hl] at hstep; exact Option.noConfusion hstep
    | finished =>
      simp only [step, hl] at hstep; exact Option.noConfusion hstep
  simp only [step, hloc, hq] at hstep
  injection hstep with he
  subst he
  refine ⟨?_, hloc, rfl, rfl, rfl⟩
  rw [hrun, hinit]
  rfl

/-- C3 witness: the theorem applied to the concrete run that seeds
`turn-0`, receives a second turn by signal, then starts and finishes the
first turn, together with the concrete FIFO dequeue step. -/
theorem c3_turn_fifo_witness :
    started_turn_ids
        [⟨"turn-0", .turnStarted "turn-0"⟩,
         ⟨"turn-0", .turnComplete "turn-0" (some "ok")⟩]
      ++ turn_ids [⟨"turn-1", "more"⟩]
      = submitted_turn_ids ⟨"hi", "m", "i", .onRequest, none⟩
          [.sigUserTurn ⟨"turn-1", "more"⟩, .startTurn, .finishTurn (some "ok")]
    ∧ (⟨⟨[⟨"turn-0", "hi"⟩, ⟨"turn-1", "more"⟩], none, false, ⟨[]⟩⟩,
        .waitingForTurn⟩ : MachineState).loc = .waitingForTurn
    ∧ (⟨⟨[⟨"turn-1", "more"⟩], none, false,
          ⟨[⟨"turn-0", .turnStarted "turn-0"⟩]⟩⟩,
        .inTurn "turn-0"⟩ : MachineState).wf.user_turns = [⟨"turn-1", "more"⟩]
    ∧ (⟨⟨[⟨"turn-1", "more"⟩], none, false,
          ⟨[⟨"turn-0", .turnStarted "turn-0"⟩]⟩⟩,
        .inTurn "turn-0"⟩ : MachineState).wf.events.events
        = (⟨⟨[⟨"turn-0", "hi"⟩, ⟨"turn-1", "more"⟩], none, false, ⟨[]⟩⟩,
            .waitingForTurn⟩ : MachineState).wf.events.events
          ++ [⟨"turn-0", .turnStarted "turn-0"⟩]
    ∧ (⟨⟨[⟨"turn-1", "more"⟩], none, false,
          ⟨[⟨"turn-0", .turnStarted "turn-0"⟩]⟩⟩,
        .inTurn "turn-0"⟩ : MachineState).loc = .inTurn "turn-0" :=
  c3_turn_fifo ⟨"hi", "m", "i", .onRequest, none⟩
    [.sigUserTurn ⟨"turn-1", "more"⟩, .startTurn, .finishTurn (some "ok")]
    ⟨⟨[⟨"turn-1", "more"⟩], none, false,
       ⟨[⟨"turn-0", .turnStarted "turn-0"⟩,
         ⟨"turn-0", .turnComplete "turn-0" (some "ok")⟩]⟩⟩, .waitingForTurn⟩
    ⟨⟨[⟨"turn-0", "hi"⟩, ⟨"turn-1", "more"⟩], none, false, ⟨[]⟩⟩,
      .waitingForTurn⟩
    ⟨⟨[⟨"turn-1", "more"⟩], none, false,
       ⟨[⟨"turn-0", .turnStarted "turn-0"⟩]⟩⟩, .inTurn "turn-0"⟩
    ⟨"turn-0", "hi"⟩ [⟨"turn-1", "more"⟩]
    (by decide) (by decide) rfl

/-- C4: in every reachable machine state, `pending_approval` is `Some`
only while the run loop is suspended at the tool handler's approval await
(`awaitingApproval` location); at every turn boundary — idle before a
`TurnStarted`, inside a turn after the handler returns, after the final
`TurnComplete`, and at workflow start — `pending_approval` is `None`. -/
theorem c4_pending_approval_scope (input : CodexWorkflowInput)
    (tr : List Action) (s : MachineState)
    (h : run (initMachineState input) tr = some s) :
    (initMachineState input).wf.pending_approval = none
    ∧ (s.wf.pending_approval ≠ none → s.loc.is_awaiting_approval = true)
    ∧ (s.loc = .waitingForTurn → s.wf.pending_approval = none)
    ∧ (s.loc.is_in_turn = true → s.wf.pending_approval = none)
    ∧ (s.loc = .finished → s.wf.pending_approval = none) := by
  have hinv := run_preserves PendingOnlyWhileAwaiting step_pending_inv
    tr _ s h (Or.inl rfl)
  refine ⟨rfl, ?_, ?_, ?_, ?_⟩
  · intro hne
    rcases hinv with hn | haw
    · exact absurd hn hne
    · exact haw
  · intro hw
    rcases hinv with hn | haw
    · exact hn
    · rw [hw] at haw
      simp [Loc.is_awaiting_approval] at haw
  · intro hi
    rcases hinv with hn | haw
    · exact hn
    · cases hl : s.loc with
      | inTurn tid => rw [hl] at haw; simp [Loc.is_awaiting_approval] at haw
      | waitingForTurn => rw [hl] at hi; simp [Loc.is_in_turn] at hi
      | awaitingApproval c t => rw [hl] at hi; simp [Loc.is_in_turn] at hi
      | finished => rw [hl] at hi; simp [Loc.is_in_turn] at hi
  · intro hf
    rcases hinv with hn | haw
    · exact hn
    · rw [hf] at haw
      simp [Loc.is_awaiting_approval] at haw

/-- C4 witness: the theorem applied to the concrete run that starts a turn
and suspends awaiting approval — the reachable state has a pending
approval and the location is indeed the handler's await. -/
theorem c4_pending_approval_scope_witness :
    (initMachineState ⟨"hi", "m", "i", .onRequest, none⟩).wf.pending_approval
      = none
    ∧ (⟨⟨[], some ⟨"c1", none⟩, false,
          ⟨[⟨"turn-0", .turnStarted "turn-0"⟩,
            ⟨"turn-0", .execApprovalRequest "c1" "turn-0" ["rm", "-rf", "/"]⟩]⟩⟩,
        .awaitingApproval "c1" "turn-0"⟩ : MachineState).wf.pending_approval
      ≠ none
    ∧ Loc.is_awaiting_approval
        (⟨⟨[], some ⟨"c1", none⟩, false,
            ⟨[⟨"turn-0", .turnStarted "turn-0"⟩,
              ⟨"turn-0", .execApprovalRequest "c1" "turn-0" ["rm", "-rf", "/"]⟩]⟩⟩,
          .awaitingApproval "c1" "turn-0"⟩ : MachineState).loc = true := by
  have hth := c4_pending_approval_scope ⟨"hi", "m", "i", .onRequest, none⟩
    [.startTurn, .requestApproval "c1" ["rm", "-rf", "/"]]
    ⟨⟨[], some ⟨"c1", none⟩, false,
       ⟨[⟨"turn-0", .turnStarted "turn-0"⟩,
         ⟨"turn-0", .execApprovalRequest "c1" "turn-0" ["rm", "-rf", "/"]⟩]⟩⟩,
      .awaitingApproval "c1" "turn-0"⟩ (by decide)
  exact ⟨hth.1, by decide, hth.2.1 (by decide)⟩

end CodexTemporal
